import Mathlib

/-!
Verification of the data preparation and filtering pipeline of the fraud
dashboard in src/ITMO_lastTask/plotlyDash.py.

Tables are modelled as lists of records.  Numeric cells that pandas stores as
floats with a possible NaN are modelled as Option rationals, with none playing
the role of the not-a-number placeholder.  In-place pandas column assignments
on a table that a function received as an argument are modelled by returning
the post-call state of that argument next to the regular result, so that frame
claims (mutation / no mutation) become statements about those components.
-/

namespace PlotlyDash

/-- Value stored in a date column.  pandas distinguishes plain date objects
(the result of accessing dt.date, or dates re-read from a file) from datetime64
values (the result of pd.to_datetime); the in-place conversion performed by
filter_data changes the former into the latter.  The payload is the day
number of the calendar date. -/
inductive DateVal
  | raw (n : ℤ)
  | dt (n : ℤ)
deriving DecidableEq, Repr, Inhabited

/-- Model of pd.to_datetime applied to one date cell. -/
def toDatetime : DateVal → DateVal
  | .raw n => .dt n
  | .dt n => .dt n

/-- The five numeric fields of the nested last_hour_activity dictionary.
Each is numeric-or-missing, so Option rational. -/
structure Activity where
  num_transactions : Option ℚ
  total_amount : Option ℚ
  unique_merchants : Option ℚ
  unique_countries : Option ℚ
  max_single_amount : Option ℚ
deriving DecidableEq, Repr, Inhabited

/-- A cell of the last_hour_activity column: either a well-formed structured
value (a Python dict) or anything else (absent / malformed). -/
inductive LHACell
  | struct (a : Activity)
  | malformed
deriving DecidableEq, Repr, Inhabited

/-- safe_extract from plotlyDash.py lines 16-22: a dict passes through,
anything else is replaced by the all-NaN default dict. -/
def safe_extract : LHACell → Activity
  | .struct a => a
  | .malformed =>
    { num_transactions := none
      total_amount := none
      unique_merchants := none
      unique_countries := none
      max_single_amount := none }

/-- A raw transaction record (the columns of the input table that the
pipeline reads; remaining columns are payload that the pipeline never
touches and are projected away). -/
structure Rec0 where
  timestamp : ℚ
  amount : ℚ
  currency : String
  vendor_category : String
  channel : String
  country : String
  city : String
  device : String
  is_weekend : Bool
  is_fraud : Bool
  last_hour_activity : LHACell
deriving DecidableEq, Repr, Inhabited

/-- The exchange-rate table: a date column plus one column per currency code.
Each row holds its date and the rate cells aligned with cols; a cell is none
when the file has a NaN there. -/
structure RateTable where
  cols : List String
  rows : List (DateVal × List (Option ℚ))
deriving DecidableEq, Repr, Inhabited

/-- The empty DataFrame. -/
def RateTable.empty : RateTable := { cols := [], rows := [] }

/-- Reading a cell of a rate row by column name (row[c] in pandas). -/
def cellAt (cols : List String) (cells : List (Option ℚ)) (c : String) : Option ℚ :=
  match (cols.zip cells).find? (fun p => decide (p.1 = c)) with
  | some p => p.2
  | none => none

/-- The rate row matching a given date, if any (the effect of a left join
against the rate table on date, assuming one row per date). -/
def findRow (rf : RateTable) (d : DateVal) : Option (List (Option ℚ)) :=
  (rf.rows.find? (fun row => decide (row.1 = d))).map Prod.snd

/-- The rate of currency c on date d as the preprocessed table sees it:
none when c is not a column of the rate table, when no row has date d, or
when the cell itself is NaN. -/
def rateFor (rf : RateTable) (c : String) (d : DateVal) : Option ℚ :=
  if c ∈ rf.cols then (findRow rf d).bind (fun cells => cellAt rf.cols cells c)
  else none

/-- An enriched record as produced by preprocess_data: the raw columns, the
five flattened activity columns, the derived date, the rate columns brought
in by the left join (bundled; none when the date matched no rate row), the
derived amount_usd, hour and weekday. -/
structure Rec where
  timestamp : ℚ
  amount : ℚ
  currency : String
  vendor_category : String
  channel : String
  country : String
  city : String
  device : String
  is_weekend : Bool
  is_fraud : Bool
  num_transactions : Option ℚ
  total_amount : Option ℚ
  unique_merchants : Option ℚ
  unique_countries : Option ℚ
  max_single_amount : Option ℚ
  date : DateVal
  rate_cells : Option (List (Option ℚ))
  amount_usd : Option ℚ
  hour : ℤ
  weekday : String
deriving DecidableEq, Repr, Inhabited

/-- pandas day_name; day 0 of the epoch was a Thursday. -/
def weekday_names : List String :=
  ["Thursday", "Friday", "Saturday", "Sunday", "Monday", "Tuesday", "Wednesday"]

def fallback_name : String := ""

def day_name (d : ℤ) : String := weekday_names.getD (d % 7).toNat fallback_name

/-- Line 31: df is mutated in place, its timestamp column floored to whole
seconds.  This is the state of the callers table after preprocess_data. -/
def floorTs (r : Rec0) : Rec0 := { r with timestamp := ((⌊r.timestamp⌋ : ℤ) : ℚ) }

/-- The derived date column (dt.date of the timestamp), a plain date value. -/
def rec_date (r : Rec0) : DateVal := DateVal.raw ⌊r.timestamp / 86400⌋

/-- convert_to_usd from lines 48-56: NaN when the currency is not a rate
column; otherwise read the merged rate cell, NaN when it is NaN or zero,
else amount divided by the rate. -/
def convert_to_usd (cols : List String) (curr : String) (amount : ℚ)
    (mcells : Option (List (Option ℚ))) : Option ℚ :=
  if curr ∈ cols then
    match mcells with
    | none => none
    | some cells =>
      match cellAt cols cells curr with
      | none => none
      | some rate => if rate = 0 then none else some (amount / rate)
  else none

/-- The rows of the rate table matched to one record by the left join on
date: one all-NaN row when no rate row matches, otherwise one copy per
matching rate row (pandas merge duplicates the record on duplicate keys). -/
def mergeRows (rf : RateTable) (d : DateVal) : List (Option (List (Option ℚ))) :=
  let ms := rf.rows.filter (fun row => decide (row.1 = d))
  if ms.isEmpty then [none] else ms.map (fun row => some row.2)

/-- Build one enriched record from a (timestamp-floored) raw record and its
merged rate cells, mirroring steps 2-6 of preprocess_data. -/
def mkRec (rf : RateTable) (r : Rec0) (mcells : Option (List (Option ℚ))) : Rec :=
  let a := safe_extract r.last_hour_activity
  { timestamp := r.timestamp
    amount := r.amount
    currency := r.currency
    vendor_category := r.vendor_category
    channel := r.channel
    country := r.country
    city := r.city
    device := r.device
    is_weekend := r.is_weekend
    is_fraud := r.is_fraud
    num_transactions := a.num_transactions
    total_amount := a.total_amount
    unique_merchants := a.unique_merchants
    unique_countries := a.unique_countries
    max_single_amount := a.max_single_amount
    date := rec_date r
    rate_cells := mcells
    amount_usd := convert_to_usd rf.cols r.currency r.amount mcells
    hour := ⌊r.timestamp / 3600⌋ % 24
    weekday := day_name ⌊r.timestamp / 86400⌋ }

/-- Result of preprocess_data.  out and rates are the two returned tables;
dfAfter is the post-call state of the input table (the code floors its
timestamp column in place before rebinding df); rateFileRead records whether
the rate file was loaded on this path. -/
structure PreprocessResult where
  out : List Rec
  rates : RateTable
  dfAfter : List Rec0
  rateFileRead : Bool
deriving DecidableEq, Repr

/-- preprocess_data from lines 26-64.  The rate file content is passed as a
parameter standing for the parquet file read at line 42; rateFileRead marks
the code path on which that read happens.  On an empty input the function
returns immediately with the input and an empty DataFrame. -/
def preprocess_data (df : List Rec0) (rateFile : RateTable) : PreprocessResult :=
  if df = [] then
    { out := [], rates := RateTable.empty, dfAfter := [], rateFileRead := false }
  else
    let df1 := df.map floorTs
    { out := df1.flatMap (fun r => (mergeRows rateFile (rec_date r)).map (mkRec rateFile r))
      rates := rateFile
      dfAfter := df1
      rateFileRead := true }

/-- A filtered record: the enriched record plus the amount_converted column
added by filter_data. -/
structure FRec where
  base : Rec
  amount_converted : Option ℚ
deriving DecidableEq, Repr, Inhabited

/-- Result of filter_data.  res is the returned table, none standing for the
KeyError raised when the target currency is not a column of a nonempty rate
table; dfAfter and df2After are the post-call states of the two arguments
(df is protected by the copy at line 639; df2 has its date column converted
in place at line 656). -/
structure FilterResult where
  res : Option (List FRec)
  dfAfter : List Rec
  df2After : RateTable
deriving DecidableEq, Repr

/-- In-place pd.to_datetime on the date column of the rate table. -/
def mapDates (rf : RateTable) : RateTable :=
  { cols := rf.cols, rows := rf.rows.map (fun p => (toDatetime p.1, p.2)) }

/-- In-place pd.to_datetime on the date column of the filtered view. -/
def setDateDt (r : Rec) : Rec := { r with date := toDatetime r.date }

/-- The membership filters of filter_data lines 640-651; an empty predicate
list models both None and an empty selection, and imposes no restriction. -/
def applyFilters (df : List Rec) (vendor_cats channels countries cities : List String)
    (is_weekend_val is_fraud_val : List Bool) : List Rec :=
  let d1 := if vendor_cats ≠ [] then df.filter (fun r => decide (r.vendor_category ∈ vendor_cats)) else df
  let d2 := if channels ≠ [] then d1.filter (fun r => decide (r.channel ∈ channels)) else d1
  let d3 := if countries ≠ [] then d2.filter (fun r => decide (r.country ∈ countries)) else d2
  let d4 := if cities ≠ [] then d3.filter (fun r => decide (r.city ∈ cities)) else d3
  let d5 := if is_weekend_val ≠ [] then d4.filter (fun r => decide (r.is_weekend ∈ is_weekend_val)) else d4
  if is_fraud_val ≠ [] then d5.filter (fun r => decide (r.is_fraud ∈ is_fraud_val)) else d5

/-- The USD / no-conversion branch of filter_data (line 666). -/
def add_usd_conv (r : Rec) : FRec := { base := r, amount_converted := r.amount_usd }

/-- The lambda of lines 660-663: multiply amount_usd by the merged target
rate when that rate is not NaN, else NaN (a NaN amount_usd also propagates). -/
def target_conv (rr : Option ℚ) (au : Option ℚ) : Option ℚ :=
  match rr with
  | some v => au.map (fun x => x * v)
  | none => none

/-- The left merge of the filtered view against the date and target-currency
columns of the rate table (line 658), one output row per match, an all-NaN
rate when nothing matches. -/
def mergeTarget (rf : RateTable) (t : String) (r : Rec) : List (Rec × Option ℚ) :=
  let ms := rf.rows.filter (fun row => decide (row.1 = r.date))
  if ms.isEmpty then [(r, none)]
  else ms.map (fun row => (r, cellAt rf.cols row.2 t))

/-- The target rate visible to one filtered row after the merge. -/
def targetRateFor (rf : RateTable) (t : String) (d : DateVal) : Option ℚ :=
  (findRow rf d).bind (fun cells => cellAt rf.cols cells t)

/-- filter_data from lines 638-668.  The target currency is an Option, none
and the empty string both being falsy in the Python condition at line 654. -/
def filter_data (df : List Rec) (df2 : RateTable)
    (vendor_cats channels countries cities : List String)
    (is_weekend_val is_fraud_val : List Bool)
    (target_currency : Option String) : FilterResult :=
  let dff := applyFilters df vendor_cats channels countries cities is_weekend_val is_fraud_val
  match target_currency with
  | some t =>
    if t ≠ "" ∧ t ≠ "USD" ∧ df2.rows ≠ [] then
      let dff1 := dff.map setDateDt
      let df2t := mapDates df2
      if t ∈ df2t.cols then
        { res := some (dff1.flatMap (fun r => (mergeTarget df2t t r).map
            (fun p => { base := p.1, amount_converted := target_conv p.2 p.1.amount_usd })))
          dfAfter := df
          df2After := df2t }
      else
        { res := none, dfAfter := df, df2After := df2t }
    else
      { res := some (dff.map add_usd_conv), dfAfter := df, df2After := df2 }
  | none => { res := some (dff.map add_usd_conv), dfAfter := df, df2After := df2 }

/-- The defined (non-NaN) values of a float column. -/
def definedVals (l : List (Option ℚ)) : List ℚ := l.reduceOption

/-- pandas Series.sum: NaN entries are skipped, the empty sum is 0. -/
def nanSum (l : List (Option ℚ)) : ℚ := (definedVals l).sum

/-- pandas Series.mean: NaN entries are skipped; NaN (none) when no entry
is defined. -/
def nanMean (l : List (Option ℚ)) : Option ℚ :=
  let v := definedVals l
  if v.length = 0 then none else some (v.sum / (v.length : ℚ))

/-- Widget of line 725: total row count of the filtered table. -/
def total_transactions (dff : List FRec) : ℕ := dff.length

/-- Widget of line 726: sum of amount_converted over the fraudulent rows. -/
def total_fraud_amount (dff : List FRec) : ℚ :=
  nanSum ((dff.filter (fun r => r.base.is_fraud)).map (fun r => r.amount_converted))

/-- Widget of line 727: mean of is_fraud times 100, 0 on an empty table. -/
def fraud_percentage (dff : List FRec) : ℚ :=
  if 0 < dff.length then
    ((dff.filter (fun r => r.base.is_fraud)).length : ℚ) / (dff.length : ℚ) * 100
  else 0

/-- Widget of line 728: mean of amount_converted, 0 on an empty table
(NaN when the table is nonempty but every amount is NaN). -/
def avg_transaction_amount (dff : List FRec) : Option ℚ :=
  if 0 < dff.length then nanMean (dff.map (fun r => r.amount_converted)) else some 0

/-- Per-device aggregation row of line 816: fraud count and total count. -/
structure DevStat where
  device : String
  fraudCount : ℕ
  totalCount : ℕ
deriving DecidableEq, Repr, Inhabited

/-- fraud_ratio of line 817. -/
def fraudRate (s : DevStat) : ℚ := (s.fraudCount : ℚ) / (s.totalCount : ℚ)

/-- The groupby of line 816: one stat row per distinct device. -/
def device_stats (dff : List FRec) : List DevStat :=
  ((dff.map (fun r => r.base.device)).dedup).map (fun d =>
    let grp := dff.filter (fun r => decide (r.base.device = d))
    { device := d
      fraudCount := (grp.filter (fun r => r.base.is_fraud)).length
      totalCount := grp.length })

/-- min_transactions_for_device_display of line 818. -/
def min_transactions_for_device_display : ℕ := 5

/-- Line 819: drop device groups with fewer than 5 records. -/
def eligible_device_stats (dff : List FRec) : List DevStat :=
  (device_stats dff).filter (fun s => decide (min_transactions_for_device_display ≤ s.totalCount))

/-- Descending order on fraud rate, the sort key of line 820. -/
def ratioGE (a b : DevStat) : Prop := fraudRate b ≤ fraudRate a

instance : DecidableRel ratioGE :=
  fun a b => inferInstanceAs (Decidable (fraudRate b ≤ fraudRate a))

instance : IsTotal DevStat ratioGE := ⟨fun a b => le_total (fraudRate b) (fraudRate a)⟩

instance : IsTrans DevStat ratioGE := ⟨fun _ _ _ hab hbc => le_trans hbc hab⟩

/-- Line 820: sort the eligible stats by fraud rate descending and keep the
first 20. -/
def fraud_device (dff : List FRec) : List DevStat :=
  (List.insertionSort ratioGE (eligible_device_stats dff)).take 20

/-- The hard-coded requested sample size of line 70. -/
def requested_sample_size : ℕ := 3

/-- k = min(3, num_row_groups) of line 70. -/
def sample_k (g : ℕ) : ℕ := min requested_sample_size g

/-- Postcondition of random.sample(range(G), k) at line 71: a duplicate-free
list of k valid row-group indices.  Uniform randomness is modelled by leaving
the selection an arbitrary value satisfying this predicate. -/
def IsSample (g : ℕ) (sel : List ℕ) : Prop :=
  sel.Nodup ∧ sel.length = sample_k g ∧ ∀ i ∈ sel, i < g

/-- Lines 73-74: read the selected row groups and concatenate them. -/
def read_sample (groups : List (List Rec0)) (sel : List ℕ) : List Rec0 :=
  sel.flatMap (fun i => groups.getD i [])

/-- How often row group g is read by a selection. -/
def timesRead (sel : List ℕ) (g : ℕ) : ℕ := sel.count g

/-- The string constant for the default target currency. -/
def usdStr : String := "USD"

/-- A sample currency code used in concrete witnesses. -/
def eurStr : String := "EUR"

/-- A sample structured last-hour-activity value. -/
def act0 : Activity :=
  { num_transactions := some 1
    total_amount := some 2
    unique_merchants := some 1
    unique_countries := some 1
    max_single_amount := some 2 }

/-- A sample raw record used in concrete witnesses. -/
def ex_rec : Rec0 :=
  { timestamp := 10
    amount := 100
    currency := "EUR"
    vendor_category := "Retail"
    channel := "web"
    country := "US"
    city := "NYC"
    device := "Chrome"
    is_weekend := false
    is_fraud := false
    last_hour_activity := LHACell.struct act0 }

/-- A raw record with a malformed last-hour-activity cell. -/
def ex_bad_rec : Rec0 := { ex_rec with last_hour_activity := LHACell.malformed }

/-- A raw record whose timestamp is not aligned to a whole second. -/
def ex_half_rec : Rec0 := { ex_rec with timestamp := 1 / 2 }

/-- A sample rate table with one dated row and two currency columns. -/
def ex_rate_table : RateTable :=
  { cols := ["EUR", "GBP"]
    rows := [(DateVal.raw 0, [some (9 / 10), some (4 / 5)])] }

/-- A sample enriched record, as preprocess_data would produce for ex_rec
joined against ex_rate_table. -/
def ex_enriched : Rec :=
  { timestamp := 10
    amount := 100
    currency := "EUR"
    vendor_category := "Retail"
    channel := "web"
    country := "US"
    city := "NYC"
    device := "Chrome"
    is_weekend := false
    is_fraud := false
    num_transactions := some 1
    total_amount := some 2
    unique_merchants := some 1
    unique_countries := some 1
    max_single_amount := some 2
    date := DateVal.raw 0
    rate_cells := some [some (9 / 10), some (4 / 5)]
    amount_usd := some (1000 / 9)
    hour := 0
    weekday := "Thursday" }

/-- A filtered-record builder for witness tables. -/
def mk_fr (d : String) (f : Bool) : FRec :=
  { base := { ex_enriched with device := d, is_fraud := f }, amount_converted := some 1 }

/-- Device name used by witness tables. -/
def devA : String := "A"

/-- Device name used by witness tables. -/
def devB : String := "B"

/-- A witness table: five non-fraud records on device A and three all-fraud
records on device B. -/
def dff_ex : List FRec :=
  [mk_fr devA false, mk_fr devA false, mk_fr devA false, mk_fr devA false, mk_fr devA false,
   mk_fr devB true, mk_fr devB true, mk_fr devB true]

/-! Helper lemmas. -/

theorem filter_eq_find_toList {β : Type} (rows : List (DateVal × β))
    (h : (rows.map Prod.fst).Nodup) (d : DateVal) :
    rows.filter (fun p => decide (p.1 = d)) = (rows.find? (fun p => decide (p.1 = d))).toList := by
  induction rows with
  | nil => rfl
  | cons a rest ih =>
    rw [List.map_cons, List.nodup_cons] at h
    by_cases hd : a.1 = d
    · rw [List.filter_cons_of_pos (by simpa using hd), List.find?_cons_of_pos _ (by simpa using hd)]
      have hnil : rest.filter (fun p => decide (p.1 = d)) = [] := by
        rw [List.filter_eq_nil_iff]
        intro p hp
        simp only [decide_eq_true_eq]
        intro hpd
        exact h.1 (List.mem_map.mpr ⟨p, hp, by rw [hpd, hd]⟩)
      simp [hnil]
    · rw [List.filter_cons_of_neg (by simpa using hd), List.find?_cons_of_neg _ (by simpa using hd)]
      exact ih h.2

theorem mergeRows_eq (rf : RateTable) (h : (rf.rows.map Prod.fst).Nodup) (d : DateVal) :
    mergeRows rf d = [findRow rf d] := by
  unfold mergeRows findRow
  rw [filter_eq_find_toList rf.rows h d]
  cases rf.rows.find? (fun p => decide (p.1 = d)) with
  | none => rfl
  | some a => rfl

theorem mergeTarget_eq (rf : RateTable) (t : String) (h : (rf.rows.map Prod.fst).Nodup)
    (r : Rec) : mergeTarget rf t r = [(r, targetRateFor rf t r.date)] := by
  unfold mergeTarget targetRateFor findRow
  rw [filter_eq_find_toList rf.rows h r.date]
  cases rf.rows.find? (fun p => decide (p.1 = r.date)) with
  | none => rfl
  | some a => rfl

theorem flatMap_single {α β : Type} (l : List α) (g : α → β) :
    l.flatMap (fun x => [g x]) = l.map g := by
  induction l with
  | nil => rfl
  | cons a rest ih => simp [List.flatMap_cons, ih]

theorem preprocess_out_eq (df : List Rec0) (rf : RateTable)
    (h : (rf.rows.map Prod.fst).Nodup) :
    (preprocess_data df rf).out =
      df.map (fun r0 => mkRec rf (floorTs r0) (findRow rf (rec_date (floorTs r0)))) := by
  unfold preprocess_data
  by_cases hdf : df = []
  · subst hdf; rfl
  · rw [if_neg hdf]
    simp only [mergeRows_eq rf h, List.map_cons, List.map_nil]
    rw [flatMap_single, List.map_map]
    rfl

theorem map_eq_self_iff_forall {α : Type} (f : α → α) (l : List α) :
    l.map f = l ↔ ∀ x ∈ l, f x = x := by
  induction l with
  | nil => simp
  | cons a rest ih => simp [ih]

theorem getD_map_lt {α β : Type} [Inhabited α] [Inhabited β] (l : List α) (f : α → β)
    (i : ℕ) (hi : i < l.length) : (l.map f).getD i default = f (l.getD i default) := by
  induction l generalizing i with
  | nil => simp at hi
  | cons a rest ih =>
    cases i with
    | zero => rfl
    | succ n => simpa using ih n (by simpa using hi)

theorem floorTs_eq_self_iff (r : Rec0) :
    floorTs r = r ↔ ((⌊r.timestamp⌋ : ℤ) : ℚ) = r.timestamp := by
  unfold floorTs
  cases r
  simp [Rec0.mk.injEq]

theorem applyFilters_nil (df : List Rec) : applyFilters df [] [] [] [] [] [] = df := by
  simp [applyFilters]

/-! Claim theorems. -/

/-- C5: on an empty filtered table the widget aggregations return total
transaction count 0, total fraud amount 0, fraud percentage 0 and average
transaction amount 0, with no error raised (the definitions are total). -/
theorem empty_table_widgets :
    total_transactions [] = 0 ∧ total_fraud_amount [] = 0 ∧
    fraud_percentage [] = 0 ∧ avg_transaction_amount [] = some 0 :=
  ⟨rfl, rfl, rfl, rfl⟩

/-- C10: on an empty input table, preprocess_data returns the empty table
together with an empty rate table, leaves the input untouched, and never
loads the rate file. -/
theorem preprocess_empty_identity (rf : RateTable) :
    preprocess_data [] rf =
      { out := [], rates := RateTable.empty, dfAfter := [], rateFileRead := false } := rfl

/-- C4: a sample is k-prime = min(k, G) distinct row groups, so every group
is read at most once, and with the requested size 3 on a file with 2 row
groups both groups are read exactly once. -/
theorem sampler_row_groups (g : ℕ) (sel : List ℕ) (hs : IsSample g sel) :
    sel.length = sample_k g ∧
    (∀ i, timesRead sel i ≤ 1) ∧
    (g = 2 → timesRead sel 0 = 1 ∧ timesRead sel 1 = 1) := by
  obtain ⟨hnd, hlen, hlt⟩ := hs
  refine ⟨hlen, fun i => List.nodup_iff_count_le_one.mp hnd i, ?_⟩
  intro hg
  subst hg
  have h2 : sel.length = 2 := by simpa [sample_k, requested_sample_size] using hlen
  cases sel with
  | nil => simp at h2
  | cons a tl =>
    cases tl with
    | nil => simp at h2
    | cons b tl2 =>
      cases tl2 with
      | nil =>
        have ha : a < 2 := hlt a (by simp)
        have hb : b < 2 := hlt b (by simp)
        have hab : a ≠ b := by
          intro he
          rw [List.nodup_cons] at hnd
          exact hnd.1 (by simp [he])
        have hcase : a = 0 ∧ b = 1 ∨ a = 1 ∧ b = 0 := by omega
        rcases hcase with ⟨h0, h1⟩ | ⟨h0, h1⟩ <;> subst h0 <;> subst h1 <;>
          exact ⟨rfl, rfl⟩
      | cons c tl3 => simp at h2

/-- Witness for C4: the sample [0, 1] on 2 row groups satisfies the sampler
postcondition, and the theorem yields both groups read exactly once. -/
theorem sampler_row_groups_witness :
    IsSample 2 [0, 1] ∧
    ([0, 1].length = sample_k 2 ∧ (∀ i, timesRead [0, 1] i ≤ 1) ∧
      (2 = 2 → timesRead [0, 1] 0 = 1 ∧ timesRead [0, 1] 1 = 1)) :=
  ⟨by constructor
      · decide
      · exact ⟨by decide, by decide⟩,
   sampler_row_groups 2 [0, 1] ⟨by decide, by decide, by decide⟩⟩

/-- Relation between the conversion applied to the merged rate row and the
rate-table lookup, the core of the amount_usd rule. -/
theorem convert_rateFor (rf : RateTable) (c : String) (a : ℚ) (d : DateVal) :
    (convert_to_usd rf.cols c a (findRow rf d) = none ↔
      rateFor rf c d = none ∨ rateFor rf c d = some 0) ∧
    ∀ v, rateFor rf c d = some v → v ≠ 0 →
      convert_to_usd rf.cols c a (findRow rf d) = some (a / v) := by
  unfold convert_to_usd rateFor
  by_cases hc : c ∈ rf.cols
  · rw [if_pos hc, if_pos hc]
    cases hfr : findRow rf d with
    | none => simp
    | some cells =>
      cases hca : cellAt rf.cols cells c with
      | none => simp [hca]
      | some v =>
        by_cases hv : v = 0
        · subst hv
          simp [hca]
        · simp [hca, hv]
  · rw [if_neg hc, if_neg hc]
    simp

/-- C1: for every row of the preprocessed table, amount_usd is NaN exactly
when the rate of the rows currency on the rows date is unavailable or zero,
and otherwise equals amount divided by that rate.  The rate table is assumed
to have one row per date, as the spec data model states. -/
theorem amount_usd_conversion_rule (df : List Rec0) (rf : RateTable)
    (hnd : (rf.rows.map Prod.fst).Nodup) :
    ∀ r ∈ (preprocess_data df rf).out,
      (r.amount_usd = none ↔
        rateFor rf r.currency r.date = none ∨ rateFor rf r.currency r.date = some 0) ∧
      ∀ v, rateFor rf r.currency r.date = some v → v ≠ 0 →
        r.amount_usd = some (r.amount / v) := by
  intro r hr
  rw [preprocess_out_eq df rf hnd] at hr
  obtain ⟨r0, _, rfl⟩ := List.mem_map.mp hr
  have h := convert_rateFor rf (floorTs r0).currency (floorTs r0).amount
    (rec_date (floorTs r0))
  simpa [mkRec] using h

/-- Witness for C1: the one-row sample table against the sample rate table. -/
theorem amount_usd_conversion_rule_witness :
    (ex_rate_table.rows.map Prod.fst).Nodup ∧
    ∀ r ∈ (preprocess_data [ex_rec] ex_rate_table).out,
      (r.amount_usd = none ↔
        rateFor ex_rate_table r.currency r.date = none ∨
        rateFor ex_rate_table r.currency r.date = some 0) ∧
      ∀ v, rateFor ex_rate_table r.currency r.date = some v → v ≠ 0 →
        r.amount_usd = some (r.amount / v) :=
  ⟨by decide, amount_usd_conversion_rule [ex_rec] ex_rate_table (by decide)⟩

/-- C8: a record whose last-hour-activity cell is malformed keeps its place
in the output table and gets NaN in all five flattened activity columns,
while every other record keeps the activity values extracted from its own
cell. -/
theorem malformed_activity_defaults (df : List Rec0) (rf : RateTable)
    (hnd : (rf.rows.map Prod.fst).Nodup) (i : ℕ) (hi : i < df.length)
    (hm : (df.getD i default).last_hour_activity = LHACell.malformed) :
    (preprocess_data df rf).out.length = df.length ∧
    ((preprocess_data df rf).out.getD i default).num_transactions = none ∧
    ((preprocess_data df rf).out.getD i default).total_amount = none ∧
    ((preprocess_data df rf).out.getD i default).unique_merchants = none ∧
    ((preprocess_data df rf).out.getD i default).unique_countries = none ∧
    ((preprocess_data df rf).out.getD i default).max_single_amount = none ∧
    ∀ j, j < df.length →
      ((preprocess_data df rf).out.getD j default).num_transactions =
        (safe_extract (df.getD j default).last_hour_activity).num_transactions := by
  rw [preprocess_out_eq df rf hnd]
  simp only [List.getD_eq_getElem?_getD] at hm
  refine ⟨by simp, ?_, ?_, ?_, ?_, ?_, ?_⟩
  · rw [getD_map_lt df _ i hi]; simp [mkRec, floorTs, hm, safe_extract]
  · rw [getD_map_lt df _ i hi]; simp [mkRec, floorTs, hm, safe_extract]
  · rw [getD_map_lt df _ i hi]; simp [mkRec, floorTs, hm, safe_extract]
  · rw [getD_map_lt df _ i hi]; simp [mkRec, floorTs, hm, safe_extract]
  · rw [getD_map_lt df _ i hi]; simp [mkRec, floorTs, hm, safe_extract]
  · intro j hj
    rw [getD_map_lt df _ j hj]
    simp [mkRec, floorTs]

/-- Witness for C8: a two-row table whose first record has a malformed
last-hour-activity cell. -/
theorem malformed_activity_defaults_witness :
    ((ex_rate_table.rows.map Prod.fst).Nodup ∧ 0 < ([ex_bad_rec, ex_rec] : List Rec0).length ∧
      (([ex_bad_rec, ex_rec] : List Rec0).getD 0 default).last_hour_activity =
        LHACell.malformed) ∧
    ((preprocess_data [ex_bad_rec, ex_rec] ex_rate_table).out.length =
        ([ex_bad_rec, ex_rec] : List Rec0).length ∧
      ((preprocess_data [ex_bad_rec, ex_rec] ex_rate_table).out.getD 0
        default).num_transactions = none ∧
      ((preprocess_data [ex_bad_rec, ex_rec] ex_rate_table).out.getD 0
        default).total_amount = none ∧
      ((preprocess_data [ex_bad_rec, ex_rec] ex_rate_table).out.getD 0
        default).unique_merchants = none ∧
      ((preprocess_data [ex_bad_rec, ex_rec] ex_rate_table).out.getD 0
        default).unique_countries = none ∧
      ((preprocess_data [ex_bad_rec, ex_rec] ex_rate_table).out.getD 0
        default).max_single_amount = none ∧
      ∀ j, j < ([ex_bad_rec, ex_rec] : List Rec0).length →
        ((preprocess_data [ex_bad_rec, ex_rec] ex_rate_table).out.getD j
          default).num_transactions =
          (safe_extract (([ex_bad_rec, ex_rec] : List Rec0).getD j
            default).last_hour_activity).num_transactions) :=
  ⟨⟨by decide, by decide, by decide⟩,
   malformed_activity_defaults [ex_bad_rec, ex_rec] ex_rate_table (by decide) 0
     (by decide) (by decide)⟩

/-- C9 amended: preprocess_data is deterministic (it is a pure function of
the input table and the rate-file content in this embedding), but it is not
side-effect free: it floors the timestamp column of the input table in
place, and the input is unchanged after the call exactly when every
timestamp was already a whole second. -/
theorem preprocess_input_mutation (df : List Rec0) (rf : RateTable) :
    (preprocess_data df rf).dfAfter = df.map floorTs ∧
    ((preprocess_data df rf).dfAfter = df ↔
      ∀ r ∈ df, ((⌊r.timestamp⌋ : ℤ) : ℚ) = r.timestamp) := by
  have hafter : (preprocess_data df rf).dfAfter = df.map floorTs := by
    unfold preprocess_data
    by_cases hdf : df = []
    · subst hdf; rfl
    · rw [if_neg hdf]
  refine ⟨hafter, ?_⟩
  rw [hafter, map_eq_self_iff_forall]
  constructor
  · intro h r hr
    exact (floorTs_eq_self_iff r).mp (h r hr)
  · intro h r hr
    exact (floorTs_eq_self_iff r).mpr (h r hr)

/-- Counterexample for C9: a record with timestamp one half second leaves
preprocess_data with its input table mutated (timestamp floored to 0), so
the Preprocessor has a side effect beyond constructing its output. -/
theorem preprocess_mutates_input :
    (preprocess_data [ex_half_rec] RateTable.empty).dfAfter ≠ [ex_half_rec] := by
  intro h
  have hd : (preprocess_data [ex_half_rec] RateTable.empty).dfAfter =
      [floorTs ex_half_rec] := rfl
  rw [hd] at h
  have h2 : floorTs ex_half_rec = ex_half_rec := (List.cons_eq_cons.mp h).1
  have h3 := congrArg Rec0.timestamp h2
  have hts : ex_half_rec.timestamp = 1 / 2 := rfl
  have hfl : ⌊ex_half_rec.timestamp⌋ = 0 := by
    rw [hts]; norm_num
  rw [show (floorTs ex_half_rec).timestamp = ((⌊ex_half_rec.timestamp⌋ : ℤ) : ℚ) from rfl,
    hfl, hts] at h3
  norm_num at h3

/-- C2 amended: filter_data never mutates the record table (it works on a
copy), and it leaves the rate table unchanged when the target currency is
USD; on a non-USD target with a nonempty rate table the only change to
either input is the in-place datetime conversion of the rate-table date
column, so the rate table after the call is always either itself or its
date-converted image. -/
theorem filter_data_frame_effect (df : List Rec) (df2 : RateTable)
    (vcs chs cos cis : List String) (iw ifr : List Bool) (target : Option String) :
    (filter_data df df2 vcs chs cos cis iw ifr target).dfAfter = df ∧
    (filter_data df df2 vcs chs cos cis iw ifr (some usdStr)).df2After = df2 ∧
    ((filter_data df df2 vcs chs cos cis iw ifr target).df2After = df2 ∨
     (filter_data df df2 vcs chs cos cis iw ifr target).df2After = mapDates df2) := by
  refine ⟨?_, ?_, ?_⟩
  · cases target with
    | none => rfl
    | some t =>
      simp only [filter_data]
      by_cases hcond : t ≠ "" ∧ t ≠ "USD" ∧ df2.rows ≠ []
      · rw [if_pos hcond]
        by_cases hmem : t ∈ (mapDates df2).cols
        · rw [if_pos hmem]
        · rw [if_neg hmem]
      · rw [if_neg hcond]
  · simp only [filter_data, usdStr]
    rw [if_neg (by simp)]
  · cases target with
    | none => exact Or.inl rfl
    | some t =>
      simp only [filter_data]
      by_cases hcond : t ≠ "" ∧ t ≠ "USD" ∧ df2.rows ≠ []
      · rw [if_pos hcond]
        by_cases hmem : t ∈ (mapDates df2).cols
        · rw [if_pos hmem]; exact Or.inr rfl
        · rw [if_neg hmem]; exact Or.inr rfl
      · rw [if_neg hcond]; exact Or.inl rfl

/-- Counterexample for C2: a rate table whose date column holds plain date
values is mutated in place by filter_data when a non-USD target currency is
selected, so filter_data does not leave both inputs unchanged. -/
theorem filter_data_mutates_rate_table :
    (filter_data [] ex_rate_table [] [] [] [] [] [] (some eurStr)).df2After ≠
      ex_rate_table := by
  decide

/-- C3 amended: amount_converted equals amount_usd when the target currency
is USD, and also when the target is non-USD but the rate table is empty;
when a non-USD target is a column of a nonempty rate table, amount_converted
is amount_usd times the target rate for the rows date when that rate is
defined and NaN otherwise; and a non-USD target that is not a column of a
nonempty rate table raises an error rather than producing NaN.  The rate
table is assumed to have one row per date after its date conversion. -/
theorem amount_converted_rule (df : List Rec) (df2 : RateTable)
    (vcs chs cos cis : List String) (iw ifr : List Bool) (t : String)
    (hnd : ((mapDates df2).rows.map Prod.fst).Nodup) :
    (∀ fr ∈ (filter_data df df2 vcs chs cos cis iw ifr (some usdStr)).res.getD [],
        fr.amount_converted = fr.base.amount_usd) ∧
    (df2.rows = [] →
      ∀ fr ∈ (filter_data df df2 vcs chs cos cis iw ifr (some t)).res.getD [],
        fr.amount_converted = fr.base.amount_usd) ∧
    (t ≠ "" → t ≠ usdStr → df2.rows ≠ [] → t ∈ df2.cols →
      ∀ fr ∈ (filter_data df df2 vcs chs cos cis iw ifr (some t)).res.getD [],
        fr.amount_converted =
          target_conv (targetRateFor (mapDates df2) t fr.base.date) fr.base.amount_usd) ∧
    (t ≠ "" → t ≠ usdStr → df2.rows ≠ [] → t ∉ df2.cols →
      (filter_data df df2 vcs chs cos cis iw ifr (some t)).res = none) := by
  refine ⟨?_, ?_, ?_, ?_⟩
  · simp only [filter_data, usdStr]
    rw [if_neg (by simp)]
    intro fr hfr
    obtain ⟨r, _, rfl⟩ := List.mem_map.mp (by simpa using hfr)
    rfl
  · intro hrows
    simp only [filter_data]
    rw [if_neg (by simp [hrows])]
    intro fr hfr
    obtain ⟨r, _, rfl⟩ := List.mem_map.mp (by simpa using hfr)
    rfl
  · intro ht1 ht2 ht3 ht4
    simp only [filter_data]
    rw [if_pos ⟨ht1, by simpa [usdStr] using ht2, ht3⟩]
    rw [if_pos (by simpa [mapDates] using ht4)]
    intro fr hfr
    simp only [Option.getD_some] at hfr
    rw [show (mapDates df2).rows = ((mapDates df2) : RateTable).rows from rfl] at hnd
    simp only [mergeTarget_eq (mapDates df2) t hnd, List.map_cons, List.map_nil] at hfr
    rw [flatMap_single] at hfr
    obtain ⟨r, _, rfl⟩ := List.mem_map.mp hfr
    rfl
  · intro ht1 ht2 ht3 ht4
    simp only [filter_data]
    rw [if_pos ⟨ht1, by simpa [usdStr] using ht2, ht3⟩]
    rw [if_neg (by simpa [mapDates] using ht4)]

/-- Witness for C3: converting the sample table to EUR against the sample
rate table, with every hypothesis discharged concretely. -/
theorem amount_converted_rule_witness :
    (eurStr ≠ "" ∧ eurStr ≠ usdStr ∧ ex_rate_table.rows ≠ [] ∧
      eurStr ∈ ex_rate_table.cols ∧
      ((mapDates ex_rate_table).rows.map Prod.fst).Nodup) ∧
    ∀ fr ∈ (filter_data [ex_enriched] ex_rate_table [] [] [] [] [] []
        (some eurStr)).res.getD [],
      fr.amount_converted =
        target_conv (targetRateFor (mapDates ex_rate_table) eurStr fr.base.date)
          fr.base.amount_usd :=
  ⟨⟨by decide, by decide, by decide, by decide, by decide⟩,
   (amount_converted_rule [ex_enriched] ex_rate_table [] [] [] [] [] [] eurStr
      (by decide)).2.2.1 (by decide) (by decide) (by decide) (by decide)⟩

/-- Counterexample for C3: a non-USD target currency with an empty rate
table (so no rate for the target exists on any date) produces
amount_converted equal to amount_usd, not NaN as the claim states. -/
theorem nonusd_empty_rates_keeps_usd :
    ((filter_data [ex_enriched] RateTable.empty [] [] [] [] [] []
        (some eurStr)).res.getD []).map (fun fr => fr.amount_converted) =
      [some (1000 / 9)] ∧
    rateFor RateTable.empty eurStr ex_enriched.date = none := by
  constructor
  · rfl
  · rfl

/-- C7: filter_data with all predicates empty and target currency USD
returns exactly the rows of the input table, with amount_converted equal to
amount_usd row by row, so the mean of amount_converted equals the mean of
amount_usd. -/
theorem no_filter_usd_full_table (df : List Rec) (df2 : RateTable) :
    (filter_data df df2 [] [] [] [] [] [] (some usdStr)).res =
      some (df.map add_usd_conv) ∧
    ((filter_data df df2 [] [] [] [] [] [] (some usdStr)).res.getD []).map
      (fun fr => fr.base) = df ∧
    nanMean (((filter_data df df2 [] [] [] [] [] [] (some usdStr)).res.getD []).map
        (fun fr => fr.amount_converted)) =
      nanMean (df.map (fun r => r.amount_usd)) := by
  have hres : (filter_data df df2 [] [] [] [] [] [] (some usdStr)).res =
      some (df.map add_usd_conv) := by
    simp only [filter_data, usdStr]
    rw [if_neg (by simp)]
    rw [applyFilters_nil]
  refine ⟨hres, ?_, ?_⟩
  · rw [hres]
    simp [add_usd_conv, Function.comp_def]
  · rw [hres]
    simp only [Option.getD_some, List.map_map]
    rfl

/-- C6: the device fraud-ratio ranking keeps only device groups with at
least 5 records (a smaller group is excluded no matter its fraud ratio),
and reports at most 20 of the remaining groups, sorted descending by fraud
rate, every excluded eligible group ranking no higher than any reported
one. -/
theorem device_ranking_rule (dff : List FRec) :
    (∀ s ∈ fraud_device dff, min_transactions_for_device_display ≤ s.totalCount) ∧
    List.Sorted ratioGE (fraud_device dff) ∧
    (fraud_device dff).length ≤ 20 ∧
    (∀ s ∈ device_stats dff, s.totalCount < min_transactions_for_device_display →
      s ∉ fraud_device dff) ∧
    (∀ s ∈ eligible_device_stats dff, s ∉ fraud_device dff →
      ∀ u ∈ fraud_device dff, fraudRate s ≤ fraudRate u) := by
  have hsorted : List.Sorted ratioGE (List.insertionSort ratioGE (eligible_device_stats dff)) :=
    List.sorted_insertionSort ratioGE (eligible_device_stats dff)
  have hmem5 : ∀ s ∈ fraud_device dff, min_transactions_for_device_display ≤ s.totalCount := by
    intro s hs
    have h1 : s ∈ List.insertionSort ratioGE (eligible_device_stats dff) :=
      List.take_subset 20 _ hs
    have h2 : s ∈ eligible_device_stats dff := (List.mem_insertionSort ratioGE).mp h1
    exact of_decide_eq_true (List.mem_filter.mp h2).2
  refine ⟨hmem5, ?_, ?_, ?_, ?_⟩
  · exact List.Pairwise.sublist (List.take_sublist 20 _) hsorted
  · exact List.length_take_le 20 _
  · intro s _ hlt hmem
    have := hmem5 s hmem
    omega
  · intro s hs hnotin u hu
    have hsL : s ∈ List.insertionSort ratioGE (eligible_device_stats dff) :=
      (List.mem_insertionSort ratioGE).mpr hs
    have hsplit : List.insertionSort ratioGE (eligible_device_stats dff) =
        (List.insertionSort ratioGE (eligible_device_stats dff)).take 20 ++
        (List.insertionSort ratioGE (eligible_device_stats dff)).drop 20 :=
      (List.take_append_drop 20 _).symm
    have hsdrop : s ∈ (List.insertionSort ratioGE (eligible_device_stats dff)).drop 20 := by
      rcases List.mem_append.mp (by rw [← hsplit]; exact hsL) with h | h
      · exact absurd h hnotin
      · exact h
    have hpair := (List.pairwise_append.mp (by rw [← hsplit]; exact hsorted)).2.2
    exact hpair u hu s hsdrop

/-- Witness for C6: in a table where device B has 3 records, all fraudulent,
device B is excluded from the ranking despite its 100 percent fraud ratio. -/
theorem device_ranking_rule_witness :
    ({ device := devB, fraudCount := 3, totalCount := 3 } : DevStat) ∈ device_stats dff_ex ∧
    ({ device := devB, fraudCount := 3, totalCount := 3 } : DevStat).totalCount <
      min_transactions_for_device_display ∧
    ({ device := devB, fraudCount := 3, totalCount := 3 } : DevStat) ∉ fraud_device dff_ex :=
  ⟨by decide, by decide,
   (device_ranking_rule dff_ex).2.2.2.1 _ (by decide) (by decide)⟩

end PlotlyDash
